import Mathlib

/-
  Shallow embedding of qmxgraph's callback-composition primitives
  (qmxgraph/callback_blocker.py) and of the debug-mode call guard
  (qmxgraph/api.py: QmxGraphApi.call_api_debug), with proofs about them.

  Conventions of the embedding:
  * Python attribute mutation is modelled by explicit state passing.
  * Python exceptions are modelled by `Except`/`Option` error values; where a
    claim cares about the partial mutations a raising method leaves behind,
    the operation returns the mutated state together with the raised error.
  * Dynamic Python values delivered to callbacks are a type parameter `A`;
    barrier stored-result keys are a type parameter `K` with decidable
    equality (Python hashable keys).
  * Registered barrier continuations are opaque callables; we model them by
    identifiers (`Nat`) paired with the `pass_self` flag, and record the
    order in which `_cross_barrier` executes them as a list.
-/

namespace Qmxgraph

/-! ## Errors raised by `CallbackBarrier` (all RuntimeError/ValueError in Python) -/

inductive BarrierError
  /-- RuntimeError raised by `increment` after `wait`: "can't increment barrier after wait". -/
  | incrementAfterWait
  /-- ValueError raised by `increment` when `n < 1`. -/
  | incrementNonPositive
  /-- RuntimeError raised by `wait` on a crossed barrier. -/
  | waitOnCrossed
  /-- RuntimeError raised by `wait` when already waiting. -/
  | alreadyWaiting
  /-- RuntimeError raised by `wait` when `_calls_pending < 0`. -/
  | calledTooManyTimes
  /-- RuntimeError raised by `__call__` after the barrier crossed. -/
  | callAfterCrossed
  /-- RuntimeError raised by `StoredResult.__call__` on a second write. -/
  | storedResultDoubleWrite
  /-- ValueError raised by `create_stored_result_callback` on a duplicate key. -/
  | keyAlreadyInUse
  /-- AssertionError raised by the `StoredResult.value` property when unfilled. -/
  | storedResultNotCalled
  deriving DecidableEq, Repr

/-! ## `CallbackBarrier.StoredResult` -/

/-- State of `CallbackBarrier.StoredResult`.  `parentAttached` models whether
`self._parent` still holds the back-reference barrier cycle (it is set to
`None` after a successful first write); `key` embeds `repr(key)`; `value`
embeds `self._value` (initially `None`); `called` embeds `self._called`. -/
structure StoredResult (K A : Type) where
  parentAttached : Bool
  key : K
  value : Option A
  called : Bool
  deriving DecidableEq, Repr

/-- State of `CallbackBarrier`: `_waiting_on_barrier`, `_crossed`,
`_calls_pending` (a Python int, so `Int`), `_stored_results` (an
insertion-ordered dict, as an association list) and
`_to_execute_after_barrier` (continuation id, `pass_self`). -/
structure CallbackBarrier (K A : Type) where
  waitingOnBarrier : Bool
  crossed : Bool
  callsPending : Int
  storedResults : List (K × StoredResult K A)
  toExecuteAfterBarrier : List (Nat × Bool)
  deriving DecidableEq, Repr

namespace CallbackBarrier

/-- `CallbackBarrier.__init__`. -/
def init : CallbackBarrier K A :=
  { waitingOnBarrier := false
    crossed := false
    callsPending := 0
    storedResults := []
    toExecuteAfterBarrier := [] }

/-- `CallbackBarrier._cross_barrier`: marks the barrier crossed, leaves the
waiting state, clears the continuation list and executes the registered
continuations in registration order.  The executed continuations are
returned as an execution log. -/
def crossBarrier (b : CallbackBarrier K A) :
    CallbackBarrier K A × List (Nat × Bool) :=
  ({ b with
      crossed := true
      waitingOnBarrier := false
      toExecuteAfterBarrier := [] },
   b.toExecuteAfterBarrier)

/-- `CallbackBarrier.register`: appends the continuation; when the barrier
has already crossed, `_cross_barrier` runs again immediately. -/
def register (b : CallbackBarrier K A) (toCall : Nat) (passSelf : Bool) :
    CallbackBarrier K A × List (Nat × Bool) :=
  let b1 := { b with
    toExecuteAfterBarrier := b.toExecuteAfterBarrier ++ [(toCall, passSelf)] }
  if b1.crossed then b1.crossBarrier else (b1, [])

/-- `CallbackBarrier.increment`. -/
def increment (b : CallbackBarrier K A) (n : Int) :
    Except BarrierError (CallbackBarrier K A) :=
  if b.waitingOnBarrier || b.crossed then .error .incrementAfterWait
  else if n < 1 then .error .incrementNonPositive
  else .ok { b with callsPending := b.callsPending + n }

/-- `CallbackBarrier.wait`: moves to the waiting state; crosses at once when
the pending count is already zero. -/
def wait (b : CallbackBarrier K A) :
    Except BarrierError (CallbackBarrier K A × List (Nat × Bool)) :=
  if b.crossed then .error .waitOnCrossed
  else if b.waitingOnBarrier then .error .alreadyWaiting
  else if b.callsPending < 0 then .error .calledTooManyTimes
  else
    let b1 := { b with waitingOnBarrier := true }
    if b1.callsPending = 0 then .ok b1.crossBarrier
    else .ok (b1, [])

/-- `CallbackBarrier.__call__`: takes (and, as the body shows, ignores) the
positional and keyword arguments, decrements the pending count, and crosses
when the count reaches exactly zero while waiting. -/
def call (b : CallbackBarrier K A) (args : List A) (kwargs : List (String × A)) :
    Except BarrierError (CallbackBarrier K A × List (Nat × Bool)) :=
  if b.crossed then .error .callAfterCrossed
  else
    let b1 := { b with callsPending := b.callsPending - 1 }
    if b1.waitingOnBarrier && b1.callsPending = 0 then .ok b1.crossBarrier
    else .ok (b1, [])

/-- `CallbackBarrier.create_stored_result_callback`: rejects duplicate keys,
creates the slot, increments the pending count by one and records the slot
in `_stored_results`. -/
def createStoredResultCallback [DecidableEq K] (b : CallbackBarrier K A) (key : K) :
    Except BarrierError (CallbackBarrier K A × StoredResult K A) :=
  if (b.storedResults.lookup key).isSome then .error .keyAlreadyInUse
  else
    let stored : StoredResult K A :=
      { parentAttached := true, key := key, value := none, called := false }
    match b.increment 1 with
    | .error e => .error e
    | .ok b1 =>
        .ok ({ b1 with storedResults := b1.storedResults ++ [(key, stored)] },
             stored)

/-- `CallbackBarrier.__getitem__`: returns the existing slot for the key, or
creates one through `create_stored_result_callback`. -/
def getItem [DecidableEq K] (b : CallbackBarrier K A) (key : K) :
    Except BarrierError (CallbackBarrier K A × StoredResult K A) :=
  match b.storedResults.lookup key with
  | some slot => .ok (b, slot)
  | none => b.createStoredResultCallback key

end CallbackBarrier

/-- `StoredResult.value` property: `assert self._called` then return
`self._value` (which is Python-`Optional`). -/
def StoredResult.valueProp (slot : StoredResult K A) :
    Except BarrierError (Option A) :=
  if slot.called then .ok slot.value else .error .storedResultNotCalled

/-- `CallbackBarrier.get_result`: `self._stored_results[key].value`; `none`
models the `KeyError` of a missing key. -/
def CallbackBarrier.getResult [DecidableEq K] (b : CallbackBarrier K A) (key : K) :
    Option (Except BarrierError (Option A)) :=
  (b.storedResults.lookup key).map StoredResult.valueProp

/-- `StoredResult.__call__`: on a second write it raises at once, mutating
nothing; on a first write it marks the slot called and stores the value,
then invokes the parent barrier (`self._parent(value)`).  Only when that
parent invocation returns normally is the back-reference cycle broken
(`self._parent = None`); when it raises, the slot keeps its new value and
the cycle.  The result is (mutated slot, mutated parent barrier, raised
error if any, continuations executed by a barrier crossing). -/
def StoredResult.call (slot : StoredResult K A) (b : CallbackBarrier K A) (v : A) :
    StoredResult K A × CallbackBarrier K A × Option BarrierError × List (Nat × Bool) :=
  if slot.called then (slot, b, some .storedResultDoubleWrite, [])
  else
    let slot1 := { slot with called := true, value := some v }
    match b.call [v] [] with
    | .error e => (slot1, b, some e, [])
    | .ok (b1, log) => ({ slot1 with parentAttached := false }, b1, none, log)

/-- Re-establishes the Python aliasing between a slot object and its entry in
the parent dict: after mutating a slot obtained from `_stored_results`, the
dict entry for its key is that same mutated object. -/
def CallbackBarrier.updateSlot [DecidableEq K] (b : CallbackBarrier K A) (key : K)
    (slot : StoredResult K A) : CallbackBarrier K A :=
  { b with storedResults :=
      b.storedResults.map fun p => if p.1 = key then (key, slot) else p }

/-- `CallbackBarrier.__exit__` calls `wait()` unconditionally, whatever
exception value (if any) is propagating out of the scope body. -/
def CallbackBarrier.exitScope (b : CallbackBarrier K A) (excValue : Option E) :
    Except BarrierError (CallbackBarrier K A × List (Nat × Bool)) :=
  match excValue with
  | _ => b.wait

/-! ## Operation sequences on a barrier -/

/-- An operation applied to a barrier from client code. -/
inductive BarrierOp (K A : Type)
  | increment (n : Int)
  | wait
  | call (args : List A) (kwargs : List (String × A))

/-- Applies one operation to a barrier, yielding the new state and the
continuations a crossing executed. -/
def CallbackBarrier.stepOp (b : CallbackBarrier K A) :
    BarrierOp K A →
      Except BarrierError (CallbackBarrier K A × List (Nat × Bool))
  | .increment n => (b.increment n).map fun b1 => (b1, [])
  | .wait => b.wait
  | .call a k => b.call a k

/-- Runs a sequence of operations, accumulating the continuation-execution
log; stops at the first raised error (each raising operation raises before
mutating state, so this matches Python even when exceptions are caught). -/
def CallbackBarrier.run (b : CallbackBarrier K A) :
    List (BarrierOp K A) →
      Except BarrierError (CallbackBarrier K A × List (Nat × Bool))
  | [] => .ok (b, [])
  | op :: rest =>
    match b.stepOp op with
    | .error e => .error e
    | .ok (b1, log) =>
      match b1.run rest with
      | .error e => .error e
      | .ok (b2, log2) => .ok (b2, log ++ log2)

/-- Registers a list of continuations one after the other (`register` with
the respective `pass_self` flags). -/
def CallbackBarrier.registerAll (b : CallbackBarrier K A)
    (cs : List (Nat × Bool)) : CallbackBarrier K A :=
  cs.foldl (fun acc p => (acc.register p.1 p.2).1) b

/-! ## `CallbackBlocker` -/

/-- Errors raised by `CallbackBlocker`. -/
inductive BlockerError
  /-- CallbackCalledTwiceError: the callback was invoked after completion. -/
  | calledTwice
  /-- TimeoutError raised by `wait`, carrying the formatted message. -/
  | timeoutError (msg : String)
  deriving DecidableEq, Repr

/-- State of `CallbackBlocker`: `timeout` (ms, `none` means wait forever),
`msg`, the captured `args`/`kwargs` of the single invocation, `called`, and
`timerActive` modelling whether `self._timer` is not `None` (it is created
in `__init__` exactly when a timeout is given, and dropped by `_cleanup`). -/
structure CallbackBlocker (A : Type) where
  timeout : Option Nat
  msg : Option String
  args : Option (List A)
  kwargs : Option (List (String × A))
  called : Bool
  timerActive : Bool
  deriving DecidableEq, Repr

namespace CallbackBlocker

/-- `CallbackBlocker.__init__`. -/
def init (timeout : Option Nat) (msg : Option String) : CallbackBlocker A :=
  { timeout := timeout
    msg := msg
    args := none
    kwargs := none
    called := false
    timerActive := timeout.isSome }

/-- `CallbackBlocker._cleanup`: disconnects, stops and drops the timer. -/
def cleanup (s : CallbackBlocker A) : CallbackBlocker A :=
  { s with timerActive := false }

/-- `CallbackBlocker._quit_loop_by_timeout`: cleans up (and quits the loop,
which the event model below handles). -/
def quitLoopByTimeout (s : CallbackBlocker A) : CallbackBlocker A :=
  s.cleanup

/-- `CallbackBlocker.__call__`: raises CallbackCalledTwiceError when already
called; otherwise captures the arguments, marks the blocker called and
cleans up (the loop is quit in both cases). -/
def call (s : CallbackBlocker A) (args : List A) (kwargs : List (String × A)) :
    Except BlockerError (CallbackBlocker A) :=
  if s.called then .error .calledTwice
  else .ok { s with
    args := some args
    kwargs := some kwargs
    called := true
    timerActive := false }

/-- Renders `self.timeout` the way the f-string in `wait` does (Python would
print `None` for a missing timeout). -/
def renderTimeout : Option Nat → String
  | some n => toString n
  | none => "None"

/-- Message of the TimeoutError raised by `wait`:
`f"Callback wasn\x27t called after \x7bself.timeout\x7dms."`, with the
optional user message appended when truthy. -/
def timeoutMessage (timeout : Option Nat) (msg : Option String) : String :=
  match msg with
  | some m =>
      if m.isEmpty then
        "Callback wasn\x27t called after " ++ renderTimeout timeout ++ "ms."
      else
        "Callback wasn\x27t called after " ++ renderTimeout timeout ++ "ms." ++
          "\n> " ++ m
  | none => "Callback wasn\x27t called after " ++ renderTimeout timeout ++ "ms."

/-- An event delivered while the nested event loop of `wait` is running:
either the blocker callback is invoked, or the single-shot timer fires. -/
inductive LoopEvent (A : Type)
  | invoked (args : List A) (kwargs : List (String × A))
  | timerFired
  deriving DecidableEq, Repr

/-- Drives the nested `QEventLoop` on a list of pending deliveries.  Each
processed `invoked` event runs `__call__` (which quits the loop), and a
`timerFired` event runs `_quit_loop_by_timeout` (which quits the loop); a
fired timer is only possible while the timer exists.  `none` models a loop
that never exits because nothing quits it. -/
def runLoop (s : CallbackBlocker A) :
    List (LoopEvent A) → Option (CallbackBlocker A)
  | [] => none
  | e :: rest =>
    match e with
    | .invoked a k =>
        match s.call a k with
        | .ok s1 => some s1
        | .error _ => some s
    | .timerFired =>
        if s.timerActive then some s.quitLoopByTimeout else runLoop s rest

/-- `CallbackBlocker.wait`: returns at once when already called; otherwise
starts the timer (when present) and drives the nested loop on the given
deliveries.  The result carries the post-`wait` state together with the
raised TimeoutError, if any; `none` models a wait that never returns. -/
def wait (s : CallbackBlocker A) (events : List (LoopEvent A)) :
    Option (CallbackBlocker A × Option BlockerError) :=
  if s.called then some (s, none)
  else
    match runLoop s events with
    | none => none
    | some s1 =>
        if s1.called then some (s1, none)
        else some (s1, some (.timeoutError (timeoutMessage s1.timeout s1.msg)))

/-- `CallbackBlocker.__exit__`: calls `wait()` only when no exception value
is propagating out of the scope body; otherwise it skips waiting and leaves
the state untouched. -/
def exitScope (s : CallbackBlocker A) (excValue : Option E)
    (events : List (LoopEvent A)) :
    Option (CallbackBlocker A × Option BlockerError) :=
  match excValue with
  | none => s.wait events
  | some _ => some (s, none)

end CallbackBlocker

/-! ## Debug-mode call guard (`QmxGraphApi.call_api_debug`) -/

/-- Target callback of an `eval_js` submission made by the guard: the
internal `check_function_exist` closure, or the caller's original
`result_callback`. -/
inductive CbTarget
  | checkFunctionExist
  | resultCallback
  deriving DecidableEq, Repr

/-- One `eval_js(callback, code)` submission. -/
structure EvalJsCall where
  target : CbTarget
  code : String
  deriving DecidableEq, Repr

/-- Modelled from the spec: `qmxgraph.js.prepare_js_call` is not under the
sources provided; per the spec the remote call expression format is
`functionName(arg1, arg2, ..., argN)` with each argument already rendered
as a JSON literal or bare identifier expression (here pre-rendered
strings). -/
def prepareJsCall (fn : String) (args : List String) : String :=
  fn ++ "(" ++ String.intercalate ", " args ++ ")"

/-- Message of the InvalidJavaScriptError raised when the graph page is not
loaded. -/
def engineUnavailableMsg : String :=
  "Because graph is unloaded can\x27t call the JavaScript API."

/-- Message of the InvalidJavaScriptError raised when the named function is
absent from the remote API, naming that function. -/
def functionNotFoundMsg (fn : String) : String :=
  "Unable to find function \"" ++ fn ++ "\" in QmxGraph JavaScript API"

/-- Existence-probe expression submitted with the `check_function_exist`
callback. -/
def probeCall (fn : String) : EvalJsCall :=
  { target := .checkFunctionExist
    code := "(typeof api !== \x27undefined\x27) && !!api." ++ fn }

/-- `QmxGraphApi.call_api_debug`: first asks the widget whether the page is
loaded (`graph.is_loaded(check_is_loaded)`); an unloaded page raises at
once, with no `eval_js` submission of any kind.  A loaded page submits the
existence probe; a missing function raises an error naming it, without
submitting the real call.  Only when both answers are positive is the real
call expression submitted with the original `result_callback`.  `isLoaded`
and `fnExists` are the booleans the remote side delivers to the two check
callbacks; the result is the ordered list of `eval_js` submissions made,
together with the raised error message, if any. -/
def callApiDebug (isLoaded fnExists : Bool) (fn : String) (args : List String) :
    List EvalJsCall × Option String :=
  if isLoaded then
    if fnExists then
      ([probeCall fn,
        { target := .resultCallback, code := "api." ++ prepareJsCall fn args }],
       none)
    else
      ([probeCall fn], some (functionNotFoundMsg fn))
  else
    ([], some engineUnavailableMsg)

/-! ## Theorems -/

/-- C2: a CallbackBlocker invoked exactly once inside its scope exits the
scope (which calls `wait()`) without raising; one invoked zero times raises,
after the timeout fires, a timeout error whose message carries the
configured duration; and a second invocation after completion raises
CallbackCalledTwiceError. -/
theorem C2_blocker_once_zero_twice (n : Nat) (m : Option String)
    (a a2 : List Nat) (k k2 : List (String × Nat)) :
    (∀ s1 : CallbackBlocker Nat,
      (CallbackBlocker.init (some n) m).call a k = .ok s1 →
        s1.exitScope (E := Unit) none [] = some (s1, none) ∧
        s1.call a2 k2 = .error .calledTwice) ∧
    (CallbackBlocker.init (A := Nat) (some n) m).exitScope (E := Unit) none
        [.timerFired] =
      some ({ CallbackBlocker.init (some n) m with timerActive := false },
        some (.timeoutError (CallbackBlocker.timeoutMessage (some n) m))) ∧
    ∃ rest, CallbackBlocker.timeoutMessage (some n) m =
      "Callback wasn\x27t called after " ++ toString n ++ "ms." ++ rest := by
  refine ⟨fun s1 h => ?_, ?_, ?_⟩
  · simp only [CallbackBlocker.call, CallbackBlocker.init, if_neg Bool.false_ne_true,
      Except.ok.injEq] at h
    subst h
    constructor
    · rfl
    · rfl
  · rfl
  · cases m with
    | none =>
        exact ⟨"", by
          simp [CallbackBlocker.timeoutMessage, CallbackBlocker.renderTimeout]⟩
    | some mm =>
        by_cases hmm : mm.isEmpty
        · exact ⟨"", by
            simp [CallbackBlocker.timeoutMessage, CallbackBlocker.renderTimeout, hmm]⟩
        · refine ⟨"\n> " ++ mm, ?_⟩
          simp only [CallbackBlocker.timeoutMessage, CallbackBlocker.renderTimeout,
            hmm, if_neg, Bool.false_eq_true, if_false]
          exact String.append_assoc _ _ _

/-- C2 witness at timeout 1000, message none, argument list [7]. -/
theorem C2_blocker_once_zero_twice_witness :
    ((⟨some 1000, none, some [7], some [], true, false⟩ :
        CallbackBlocker Nat).exitScope (E := Unit) none [] =
      some (⟨some 1000, none, some [7], some [], true, false⟩, none)) ∧
    ((⟨some 1000, none, some [7], some [], true, false⟩ :
        CallbackBlocker Nat).call [] [] = .error .calledTwice) :=
  (C2_blocker_once_zero_twice 1000 none [7] [] [] []).1
    ⟨some 1000, none, some [7], some [], true, false⟩ rfl

/-- C5: after a CallbackBlocker's `wait()` has timed out (raised the timeout
error), a later first invocation of its callback does not raise: it merely
records the (discarded) arguments and marks the blocker called. -/
theorem C5_late_delivery_after_timeout (n : Nat) (m : Option String)
    (a : List Nat) (k : List (String × Nat)) :
    ∀ (sT : CallbackBlocker Nat) (err : BlockerError),
      (CallbackBlocker.init (A := Nat) (some n) m).wait
          [.timerFired] = some (sT, some err) →
        sT.call a k =
          .ok { sT with args := some a, kwargs := some k, called := true,
                        timerActive := false } := by
  intro sT err h
  have hT : sT = { CallbackBlocker.init (A := Nat) (some n) m with
      timerActive := false } := by
    simp only [CallbackBlocker.wait, CallbackBlocker.init, CallbackBlocker.runLoop,
      CallbackBlocker.quitLoopByTimeout, CallbackBlocker.cleanup, Option.isSome_some,
      if_true, if_neg Bool.false_ne_true, Option.some.injEq, Prod.mk.injEq] at h
    exact h.1.symm
  subst hT
  rfl

/-- C5 witness at timeout 1000, no message, late argument list [3]. -/
theorem C5_late_delivery_after_timeout_witness :
    (⟨some 1000, none, none, none, false, false⟩ :
        CallbackBlocker Nat).call [3] [] =
      .ok ⟨some 1000, none, some [3], some [], true, false⟩ :=
  C5_late_delivery_after_timeout 1000 none [3] []
    ⟨some 1000, none, none, none, false, false⟩
    (.timeoutError (CallbackBlocker.timeoutMessage (some 1000) none))
    rfl

/-- C7: `CallbackBlocker.__exit__` calls `wait()` only when no exception
propagated (and skips waiting otherwise, returning with the state untouched
and nothing raised), whereas `CallbackBarrier.__exit__` calls `wait()`
unconditionally. -/
theorem C7_exit_scope_asymmetry (s : CallbackBlocker Nat)
    (b : CallbackBarrier Nat Nat) (e : Unit)
    (events : List (CallbackBlocker.LoopEvent Nat)) :
    s.exitScope (some e) events = some (s, none) ∧
    s.exitScope (E := Unit) none events = s.wait events ∧
    b.exitScope (some e) = b.wait ∧
    b.exitScope (E := Unit) none = b.wait :=
  ⟨rfl, rfl, rfl, rfl⟩

/-- C8: invoking a stored-result slot for the first time after its parent
barrier has crossed raises the call-after-crossed error, yet the failing
call still mutates the slot: it is marked delivered with the given value
(a later value read succeeds and a second invocation raises the
double-write error), and the back-reference to the parent barrier is not
broken. -/
theorem C8_slot_call_after_crossed (b : CallbackBarrier Nat Nat)
    (slot : StoredResult Nat Nat) (v w : Nat)
    (hb : b.crossed = true) (hs : slot.called = false)
    (hp : slot.parentAttached = true) :
    StoredResult.call slot b v =
      ({ slot with called := true, value := some v }, b,
        some .callAfterCrossed, []) ∧
    StoredResult.valueProp { slot with called := true, value := some v } =
      .ok (some v) ∧
    ({ slot with called := true, value := some v } :
        StoredResult Nat Nat).parentAttached = true ∧
    StoredResult.call { slot with called := true, value := some v } b w =
      ({ slot with called := true, value := some v }, b,
        some .storedResultDoubleWrite, []) := by
  refine ⟨?_, ?_, ?_, ?_⟩
  · simp [StoredResult.call, CallbackBarrier.call, hb, hs]
  · simp [StoredResult.valueProp]
  · exact hp
  · simp [StoredResult.call]

/-- C8 witness: a crossed barrier with key 0's slot unfilled, value 5 then 6. -/
theorem C8_slot_call_after_crossed_witness :
    StoredResult.call
        (⟨true, 0, none, false⟩ : StoredResult Nat Nat)
        (⟨false, true, 0, [(0, ⟨true, 0, none, false⟩)], []⟩ :
          CallbackBarrier Nat Nat) 5 =
      (⟨true, 0, some 5, true⟩,
        ⟨false, true, 0, [(0, ⟨true, 0, none, false⟩)], []⟩,
        some .callAfterCrossed, []) ∧
    StoredResult.valueProp (⟨true, 0, some 5, true⟩ : StoredResult Nat Nat) =
      .ok (some 5) :=
  ⟨(C8_slot_call_after_crossed _ ⟨true, 0, none, false⟩ 5 6 rfl rfl rfl).1,
   (C8_slot_call_after_crossed
      (⟨false, true, 0, [(0, ⟨true, 0, none, false⟩)], []⟩ :
        CallbackBarrier Nat Nat) ⟨true, 0, none, false⟩ 5 6 rfl rfl rfl).2.1⟩

/-- C10: `CallbackBarrier.__call__` discards its arguments: the result never
depends on them, and a successful call either only decrements the pending
count, or decrements it and crosses (executing the pending continuations);
no field of the barrier receives the argument values. -/
theorem C10_call_discards_arguments (b : CallbackBarrier Nat Nat)
    (a1 a2 : List Nat) (k1 k2 : List (String × Nat)) :
    b.call a1 k1 = b.call a2 k2 ∧
    ∀ b1 log, b.call a1 k1 = .ok (b1, log) →
      (b1 = { b with callsPending := b.callsPending - 1 } ∧ log = []) ∨
      (b1 = { b with
                callsPending := b.callsPending - 1
                crossed := true
                waitingOnBarrier := false
                toExecuteAfterBarrier := [] } ∧
        log = b.toExecuteAfterBarrier) := by
  refine ⟨rfl, fun b1 log h => ?_⟩
  unfold CallbackBarrier.call at h
  split at h
  · exact absurd h (by simp)
  · dsimp only at h
    split at h
    · refine .inr ?_
      simp only [CallbackBarrier.crossBarrier, Except.ok.injEq, Prod.mk.injEq] at h
      exact ⟨h.1.symm, h.2.symm⟩
    · refine .inl ?_
      simp only [Except.ok.injEq, Prod.mk.injEq] at h
      exact ⟨h.1.symm, h.2.symm⟩

/-- C10 witness: a waiting barrier with pending count 1 and one registered
continuation, called with arguments [9], takes the crossing branch. -/
theorem C10_call_discards_arguments_witness :
    ((⟨false, true, 0, [], []⟩ : CallbackBarrier Nat Nat) =
        ⟨true, false, 0, [], [(4, false)]⟩ ∧
      ([(4, false)] : List (Nat × Bool)) = []) ∨
    ((⟨false, true, 0, [], []⟩ : CallbackBarrier Nat Nat) =
        ⟨false, true, 0, [], []⟩ ∧
      ([(4, false)] : List (Nat × Bool)) = [(4, false)]) :=
  (C10_call_discards_arguments ⟨true, false, 1, [], [(4, false)]⟩
    [9] [] [] [("x", 2)]).2 ⟨false, true, 0, [], []⟩ [(4, false)] rfl

/-- C6: in debug mode the guard checks engine readiness first — an unloaded
engine raises the engine-unavailable error with no remote submission at all
(neither the existence probe nor the real call); with the engine ready it
submits the existence probe, and a missing function raises an error naming
that function with no real-call submission; only when both checks pass is
the real call expression submitted with the original completion callback,
after the probe. -/
theorem C6_debug_guard_order (fn : String) (args : List String) (fe : Bool) :
    callApiDebug false fe fn args = ([], some engineUnavailableMsg) ∧
    callApiDebug true false fn args =
      ([probeCall fn], some (functionNotFoundMsg fn)) ∧
    functionNotFoundMsg fn =
      "Unable to find function \"" ++ fn ++ "\" in QmxGraph JavaScript API" ∧
    callApiDebug true true fn args =
      ([probeCall fn,
        { target := .resultCallback, code := "api." ++ prepareJsCall fn args }],
       none) ∧
    (∀ c ∈ (callApiDebug false fe fn args).1,
      c.target ≠ CbTarget.resultCallback) ∧
    (∀ c ∈ (callApiDebug true false fn args).1,
      c.target ≠ CbTarget.resultCallback) := by
  refine ⟨rfl, rfl, rfl, rfl, ?_, ?_⟩
  · simp [callApiDebug]
  · simp [callApiDebug, probeCall]

/-- C6 witness: the existence probe submitted for the missing function
"BOOM" does not target the caller's result callback. -/
theorem C6_debug_guard_order_witness :
    (probeCall "BOOM").target ≠ CbTarget.resultCallback :=
  (C6_debug_guard_order "BOOM" ["1"] true).2.2.2.2.2 (probeCall "BOOM")
    (by simp [callApiDebug])

/-- Keys of an association list with a failed lookup all differ from the
looked-up key. -/
theorem lookup_none_keys_ne {K B : Type} [DecidableEq K] :
    ∀ (l : List (K × B)) (key : K), l.lookup key = none → ∀ p ∈ l, key ≠ p.1
  | [], _, _, p, hp => absurd hp (List.not_mem_nil p)
  | (k, v) :: t, key, h, p, hp => by
      by_cases hk : key = k
      · subst hk
        simp [List.lookup] at h
      · have hbeq : (key == k) = false := beq_eq_false_iff_ne.mpr hk
        have h' : t.lookup key = none := by
          simpa [List.lookup, hbeq] using h
        rcases List.mem_cons.mp hp with rfl | hp'
        · exact hk
        · exact lookup_none_keys_ne t key h' p hp'

/-- Lookup skips a prefix that does not contain the key. -/
theorem lookup_append_of_none {K B : Type} [DecidableEq K] :
    ∀ (l l2 : List (K × B)) (key : K), l.lookup key = none →
      (l ++ l2).lookup key = l2.lookup key
  | [], _, _, _ => rfl
  | (k, v) :: t, l2, key, h => by
      by_cases hk : key = k
      · subst hk
        simp [List.lookup] at h
      · have hbeq : (key == k) = false := beq_eq_false_iff_ne.mpr hk
        have h' : t.lookup key = none := by
          simpa [List.lookup, hbeq] using h
        simpa [List.lookup, hbeq] using lookup_append_of_none t l2 key h'

/-- Replacing the entry of an absent key is the identity. -/
theorem map_update_of_keys_ne {K B : Type} [DecidableEq K] :
    ∀ (l : List (K × B)) (key : K) (s : B), (∀ p ∈ l, key ≠ p.1) →
      (l.map fun p => if p.1 = key then (key, s) else p) = l
  | [], _, _, _ => rfl
  | (k, v) :: t, key, s, h => by
      have hk : key ≠ k := h (k, v) (List.mem_cons_self _ _)
      have ht := map_update_of_keys_ne t key s
        (fun p hp => h p (List.mem_cons_of_mem _ hp))
      simp [Ne.symm hk, ht]

/-- C9: indexing a barrier by key is idempotent after the first access: in
the editing phase, the first `barrier[key]` access creates the slot and
increments the pending count by one, while any access to a key already
present returns the stored slot and leaves the barrier (in particular its
pending count) unchanged. -/
theorem C9_getitem_idempotent (b : CallbackBarrier Nat Nat) (key : Nat)
    (hw : b.waitingOnBarrier = false) (hc : b.crossed = false) :
    (b.storedResults.lookup key = none →
      b.getItem key =
        .ok ({ b with
                callsPending := b.callsPending + 1
                storedResults := b.storedResults ++
                  [(key, ⟨true, key, none, false⟩)] },
             ⟨true, key, none, false⟩) ∧
      ({ b with
          callsPending := b.callsPending + 1
          storedResults := b.storedResults ++
            [(key, ⟨true, key, none, false⟩)] } :
          CallbackBarrier Nat Nat).getItem key =
        .ok ({ b with
                callsPending := b.callsPending + 1
                storedResults := b.storedResults ++
                  [(key, ⟨true, key, none, false⟩)] },
             ⟨true, key, none, false⟩)) ∧
    (∀ slot, b.storedResults.lookup key = some slot →
      b.getItem key = .ok (b, slot)) := by
  constructor
  · intro hk
    constructor
    · simp [CallbackBarrier.getItem, CallbackBarrier.createStoredResultCallback,
        CallbackBarrier.increment, hk, hw, hc]
    · have hlook :
          (b.storedResults ++ [(key, (⟨true, key, none, false⟩ :
            StoredResult Nat Nat))]).lookup key =
            some ⟨true, key, none, false⟩ := by
        rw [lookup_append_of_none _ _ _ hk]
        simp [List.lookup]
      simp [CallbackBarrier.getItem, hlook]
  · intro slot hs
    simp [CallbackBarrier.getItem, hs]

/-- C9 witness: key 4 on a fresh editing barrier — creation then re-access. -/
theorem C9_getitem_idempotent_witness :
    ((CallbackBarrier.init : CallbackBarrier Nat Nat).getItem 4 =
      .ok (⟨false, false, 1, [(4, ⟨true, 4, none, false⟩)], []⟩,
           ⟨true, 4, none, false⟩)) ∧
    ((⟨false, false, 1, [(4, ⟨true, 4, none, false⟩)], []⟩ :
        CallbackBarrier Nat Nat).getItem 4 =
      .ok (⟨false, false, 1, [(4, ⟨true, 4, none, false⟩)], []⟩,
           ⟨true, 4, none, false⟩)) :=
  (C9_getitem_idempotent CallbackBarrier.init 4 rfl rfl).1 rfl

/-- C4: a stored-result slot created for a key and then invoked with a value
raises nothing, returns exactly that value from a subsequent `value` /
`get_result(key)` read, and a second invocation of the same slot raises the
double-write error. -/
theorem C4_stored_result_roundtrip (b : CallbackBarrier Nat Nat)
    (key : Nat) (v w : Nat)
    (hw : b.waitingOnBarrier = false) (hc : b.crossed = false)
    (hk : b.storedResults.lookup key = none) :
    ∀ b1 slot, b.createStoredResultCallback key = .ok (b1, slot) →
      ∀ slot2 b2 err log, StoredResult.call slot b1 v = (slot2, b2, err, log) →
        err = none ∧
        slot2.valueProp = .ok (some v) ∧
        (b2.updateSlot key slot2).getResult key = some (.ok (some v)) ∧
        (StoredResult.call slot2 b2 w).2.2.1 =
          some BarrierError.storedResultDoubleWrite := by
  intro b1 slot hcreate slot2 b2 err log hcall
  have hcreate' : b.createStoredResultCallback key =
      .ok ({ b with
              callsPending := b.callsPending + 1
              storedResults := b.storedResults ++
                [(key, ⟨true, key, none, false⟩)] },
           (⟨true, key, none, false⟩ : StoredResult Nat Nat)) := by
    simp [CallbackBarrier.createStoredResultCallback, CallbackBarrier.increment,
      hk, hw, hc]
  rw [hcreate'] at hcreate
  obtain ⟨hb1, hslot⟩ : _ ∧ _ := by simpa using hcreate.symm
  subst hb1
  subst hslot
  have hcall' :
      StoredResult.call (⟨true, key, none, false⟩ : StoredResult Nat Nat)
        ({ b with
            callsPending := b.callsPending + 1
            storedResults := b.storedResults ++
              [(key, ⟨true, key, none, false⟩)] }) v =
      (⟨false, key, some v, true⟩,
       { b with
          callsPending := b.callsPending + 1 - 1
          storedResults := b.storedResults ++
            [(key, ⟨true, key, none, false⟩)] },
       none, []) := by
    simp [StoredResult.call, CallbackBarrier.call, hc, hw]
  rw [hcall'] at hcall
  obtain ⟨h2, h3, h4, h5⟩ : _ ∧ _ ∧ _ ∧ _ := by simpa using hcall.symm
  subst h2
  subst h3
  subst h4
  subst h5
  have hkeys : ∀ p ∈ b.storedResults, key ≠ p.1 :=
    lookup_none_keys_ne _ _ hk
  have hmap :
      ((b.storedResults ++
          [(key, (⟨true, key, none, false⟩ : StoredResult Nat Nat))]).map
        fun p => if p.1 = key
          then (key, (⟨false, key, some v, true⟩ : StoredResult Nat Nat))
          else p) =
      b.storedResults ++ [(key, ⟨false, key, some v, true⟩)] := by
    rw [List.map_append, map_update_of_keys_ne _ _ _ hkeys]
    simp
  have hlook2 :
      (b.storedResults ++
        [(key, (⟨false, key, some v, true⟩ : StoredResult Nat Nat))]).lookup
        key = some ⟨false, key, some v, true⟩ := by
    rw [lookup_append_of_none _ _ _ hk]
    simp [List.lookup]
  refine ⟨rfl, by simp [StoredResult.valueProp], ?_, by simp [StoredResult.call]⟩
  simp [CallbackBarrier.updateSlot, CallbackBarrier.getResult, hmap, hlook2,
    StoredResult.valueProp]

/-- C4 witness: a fresh barrier, key 4, value 5 delivered, then 6 rejected. -/
theorem C4_stored_result_roundtrip_witness :
    (none : Option BarrierError) = none ∧
    StoredResult.valueProp (⟨false, 4, some 5, true⟩ : StoredResult Nat Nat) =
      .ok (some 5) ∧
    ((⟨false, false, 0, [(4, ⟨true, 4, none, false⟩)], []⟩ :
        CallbackBarrier Nat Nat).updateSlot 4
      ⟨false, 4, some 5, true⟩).getResult 4 = some (.ok (some 5)) ∧
    (StoredResult.call (⟨false, 4, some 5, true⟩ : StoredResult Nat Nat)
      ⟨false, false, 0, [(4, ⟨true, 4, none, false⟩)], []⟩ 6).2.2.1 =
      some BarrierError.storedResultDoubleWrite :=
  C4_stored_result_roundtrip CallbackBarrier.init 4 5 6 rfl rfl rfl
    ⟨false, false, 1, [(4, ⟨true, 4, none, false⟩)], []⟩
    ⟨true, 4, none, false⟩ rfl
    ⟨false, 4, some 5, true⟩
    ⟨false, false, 0, [(4, ⟨true, 4, none, false⟩)], []⟩ none [] rfl

/-- Each successful operation preserves the invariant that a waiting barrier
has a pending count of at least one. -/
theorem stepOp_preserves_waitInv (b b' : CallbackBarrier Nat Nat)
    (op : BarrierOp Nat Nat) (log : List (Nat × Bool))
    (hInv : b.waitingOnBarrier = true → 1 ≤ b.callsPending)
    (h : b.stepOp op = .ok (b', log)) :
    b'.waitingOnBarrier = true → 1 ≤ b'.callsPending := by
  cases op with
  | increment n =>
      simp only [CallbackBarrier.stepOp] at h
      rw [CallbackBarrier.increment] at h
      split at h
      · simp [Except.map] at h
      · split at h
        · simp [Except.map] at h
        · simp only [Except.map, Except.ok.injEq, Prod.mk.injEq] at h
          obtain ⟨h1, -⟩ := h
          subst h1
          intro hw'
          rename_i hwb _
          simp only [Bool.or_eq_true, not_or] at hwb
          exact absurd hw' hwb.1
  | wait =>
      simp only [CallbackBarrier.stepOp] at h
      rw [CallbackBarrier.wait] at h
      split at h
      · simp at h
      · split at h
        · simp at h
        · split at h
          · simp at h
          · dsimp only at h
            split at h
            · simp only [CallbackBarrier.crossBarrier, Except.ok.injEq,
                Prod.mk.injEq] at h
              obtain ⟨h1, -⟩ := h
              subst h1
              intro hw'
              simp at hw'
            · simp only [Except.ok.injEq, Prod.mk.injEq] at h
              obtain ⟨h1, -⟩ := h
              subst h1
              intro hw'
              rename_i hcr hwa hneg hz
              have hneg' : ¬(b.callsPending < 0) := hneg
              have hz' : ¬(b.callsPending = 0) := hz
              show 1 ≤ b.callsPending
              omega
  | call a k =>
      simp only [CallbackBarrier.stepOp] at h
      rw [CallbackBarrier.call] at h
      split at h
      · simp at h
      · dsimp only at h
        split at h
        · simp only [CallbackBarrier.crossBarrier, Except.ok.injEq,
            Prod.mk.injEq] at h
          obtain ⟨h1, -⟩ := h
          subst h1
          intro hw'
          simp at hw'
        · simp only [Except.ok.injEq, Prod.mk.injEq] at h
          obtain ⟨h1, -⟩ := h
          subst h1
          intro hw'
          rename_i hcr hcross
          have hwb : b.waitingOnBarrier = true := hw'
          have h1p : 1 ≤ b.callsPending := hInv hwb
          have hcross' : ¬(b.callsPending - 1 = 0) := by
            intro hzz
            exact hcross (by simp [hwb, hzz])
          show 1 ≤ b.callsPending - 1
          omega

/-- A run of operations preserves the waiting-implies-positive-pending
invariant. -/
theorem run_preserves_waitInv (ops : List (BarrierOp Nat Nat)) :
    ∀ (b b' : CallbackBarrier Nat Nat) (log : List (Nat × Bool)),
      (b.waitingOnBarrier = true → 1 ≤ b.callsPending) →
      b.run ops = .ok (b', log) →
      (b'.waitingOnBarrier = true → 1 ≤ b'.callsPending) := by
  induction ops with
  | nil =>
      intro b b' log hInv h
      simp only [CallbackBarrier.run, Except.ok.injEq, Prod.mk.injEq] at h
      rw [← h.1]
      exact hInv
  | cons op rest ih =>
      intro b b' log hInv h
      simp only [CallbackBarrier.run] at h
      cases hstep : b.stepOp op with
      | error e => rw [hstep] at h; simp at h
      | ok p =>
          obtain ⟨b1, log1⟩ := p
          rw [hstep] at h
          dsimp only at h
          cases hrun : b1.run rest with
          | error e => rw [hrun] at h; simp at h
          | ok q =>
              obtain ⟨b2, log2⟩ := q
              rw [hrun] at h
              simp only [Except.ok.injEq, Prod.mk.injEq] at h
              rw [← h.1]
              exact ih b1 b2 log2
                (stepOp_preserves_waitInv b b1 op log1 hInv hstep) hrun

/-- C3 counterexample: the claim as stated is false in the editing phase — a
single `__call__` on a fresh barrier succeeds and leaves a reachable
editing-phase state (not waiting, not crossed) whose pending count is the
negative integer -1. -/
theorem C3_editing_negative_counterexample :
    (CallbackBarrier.init : CallbackBarrier Nat Nat).run [.call [] []] =
      .ok (⟨false, false, -1, [], []⟩, []) ∧
    (⟨false, false, -1, [], []⟩ :
      CallbackBarrier Nat Nat).waitingOnBarrier = false ∧
    (⟨false, false, -1, [], []⟩ : CallbackBarrier Nat Nat).crossed = false ∧
    ¬(0 ≤ (⟨false, false, -1, [], []⟩ :
        CallbackBarrier Nat Nat).callsPending) :=
  ⟨rfl, rfl, rfl, by decide⟩

/-- C3 (amended): for every reachable CallbackBarrier state in the waiting
phase, under any sequence of increment(), wait() and `__call__()`
operations from a fresh barrier, the pending count is an integer ≥ 0 (in
the editing phase excess calls can drive it negative). -/
theorem C3_waiting_pending_nonneg (ops : List (BarrierOp Nat Nat))
    (b : CallbackBarrier Nat Nat) (log : List (Nat × Bool))
    (h : (CallbackBarrier.init : CallbackBarrier Nat Nat).run ops =
      .ok (b, log))
    (hw : b.waitingOnBarrier = true) : 0 ≤ b.callsPending := by
  have h1 := run_preserves_waitInv ops CallbackBarrier.init b log
    (by intro hcontra; simp [CallbackBarrier.init] at hcontra) h hw
  omega

/-- C3 witness: increment once then wait reaches a waiting state, whose
pending count the theorem bounds. -/
theorem C3_waiting_pending_nonneg_witness :
    (0 : Int) ≤ (⟨true, false, 1, [], []⟩ :
      CallbackBarrier Nat Nat).callsPending :=
  C3_waiting_pending_nonneg [.increment 1, .wait]
    ⟨true, false, 1, [], []⟩ [] rfl rfl

/-- A step that executes no continuations prepends nothing to the run log. -/
theorem run_cons_of_step_nil_log {b b1 : CallbackBarrier Nat Nat}
    {op : BarrierOp Nat Nat} {ops : List (BarrierOp Nat Nat)}
    (hstep : b.stepOp op = .ok (b1, [])) :
    b.run (op :: ops) = b1.run ops := by
  simp only [CallbackBarrier.run, hstep]
  cases hrun : b1.run ops with
  | error e => rfl
  | ok q =>
      obtain ⟨b2, log2⟩ := q
      simp

/-- A block of increments in the editing phase adds their sum to the pending
count and executes nothing. -/
theorem run_increments (incs : List Int) :
    ∀ (b : CallbackBarrier Nat Nat) (rest : List (BarrierOp Nat Nat)),
      (∀ i ∈ incs, 1 ≤ i) →
      b.waitingOnBarrier = false → b.crossed = false →
      b.run (incs.map BarrierOp.increment ++ rest) =
        ({ b with callsPending := b.callsPending + incs.sum }).run rest := by
  induction incs with
  | nil =>
      intro b rest h1 hw hc
      have he : ({ b with callsPending :=
          b.callsPending + List.sum ([] : List Int) } :
          CallbackBarrier Nat Nat) = b := by simp
      rw [List.map_nil, List.nil_append, he]
  | cons i t ih =>
      intro b rest h1 hw hc
      have hi : 1 ≤ i := h1 i (List.mem_cons_self _ _)
      have hni : ¬i < 1 := by omega
      have hstep : b.stepOp (.increment i) =
          .ok ({ b with callsPending := b.callsPending + i }, []) := by
        simp [CallbackBarrier.stepOp, CallbackBarrier.increment, hw, hc, hni,
          Except.map]
      rw [List.map_cons, List.cons_append, run_cons_of_step_nil_log hstep]
      rw [ih { b with callsPending := b.callsPending + i } rest
        (fun j hj => h1 j (List.mem_cons_of_mem _ hj)) hw hc]
      have he : b.callsPending + i + t.sum = b.callsPending + (i :: t).sum := by
        rw [List.sum_cons]
        ring
      rw [he]

/-- A block of calls in the editing phase only decrements the pending count
and executes nothing. -/
theorem run_calls_editing (a : List Nat) (kw : List (String × Nat)) :
    ∀ (k : Nat) (b : CallbackBarrier Nat Nat) (rest : List (BarrierOp Nat Nat)),
      b.waitingOnBarrier = false → b.crossed = false →
      b.run (List.replicate k (BarrierOp.call a kw) ++ rest) =
        ({ b with callsPending := b.callsPending - (k : Int) }).run rest := by
  intro k
  induction k with
  | zero =>
      intro b rest hw hc
      have he : ({ b with callsPending :=
          b.callsPending - ((0 : Nat) : Int) } : CallbackBarrier Nat Nat) = b := by
        simp
      rw [List.replicate_zero, List.nil_append, he]
  | succ j ihj =>
      intro b rest hw hc
      have hstep : b.stepOp (.call a kw) =
          .ok ({ b with callsPending := b.callsPending - 1 }, []) := by
        simp [CallbackBarrier.stepOp, CallbackBarrier.call, hc, hw]
      rw [List.replicate_succ, List.cons_append, run_cons_of_step_nil_log hstep]
      rw [ihj { b with callsPending := b.callsPending - 1 } rest hw hc]
      have he : b.callsPending - 1 - (j : Int) =
          b.callsPending - ((j + 1 : Nat) : Int) := by
        push_cast
        ring
      rw [he]

/-- In the waiting phase with pending count `j + 1`, exactly `j + 1` calls
cross the barrier, executing the registered continuations once. -/
theorem run_calls_waiting (a : List Nat) (kw : List (String × Nat)) :
    ∀ (j : Nat) (b : CallbackBarrier Nat Nat),
      b.waitingOnBarrier = true → b.crossed = false →
      b.callsPending = ((j + 1 : Nat) : Int) →
      b.run (List.replicate (j + 1) (BarrierOp.call a kw)) =
        .ok (⟨false, true, 0, b.storedResults, []⟩, b.toExecuteAfterBarrier) := by
  intro j
  induction j with
  | zero =>
      intro b hw hc hp
      have hstep : b.stepOp (.call a kw) =
          .ok (⟨false, true, 0, b.storedResults, []⟩,
               b.toExecuteAfterBarrier) := by
        simp [CallbackBarrier.stepOp, CallbackBarrier.call,
          CallbackBarrier.crossBarrier, hc, hw, hp]
      rw [List.replicate_succ, List.replicate_zero]
      simp only [CallbackBarrier.run, hstep]
      simp
  | succ jj ihjj =>
      intro b hw hc hp
      have hne : ¬(b.callsPending - 1 = 0) := by
        rw [hp]
        push_cast
        omega
      have hstep : b.stepOp (.call a kw) =
          .ok ({ b with callsPending := b.callsPending - 1 }, []) := by
        simp [CallbackBarrier.stepOp, CallbackBarrier.call, hc, hw, hne]
      rw [List.replicate_succ, run_cons_of_step_nil_log hstep]
      have hp' : ({ b with callsPending := b.callsPending - 1 } :
          CallbackBarrier Nat Nat).callsPending = ((jj + 1 : Nat) : Int) := by
        show b.callsPending - 1 = _
        rw [hp]
        push_cast
        ring
      rw [ihjj { b with callsPending := b.callsPending - 1 } hw hc hp']

/-- Registering a list of continuations on an uncrossed barrier appends
them, in order, to the continuation list. -/
theorem registerAll_of_not_crossed :
    ∀ (cs : List (Nat × Bool)) (b : CallbackBarrier Nat Nat),
      b.crossed = false →
      b.registerAll cs =
        { b with toExecuteAfterBarrier := b.toExecuteAfterBarrier ++ cs }
  | [], b, hc => by
      simp [CallbackBarrier.registerAll]
  | c :: t, b, hc => by
      obtain ⟨cid, cps⟩ := c
      have hreg : (b.register cid cps).1 =
          { b with toExecuteAfterBarrier :=
              b.toExecuteAfterBarrier ++ [(cid, cps)] } := by
        simp [CallbackBarrier.register, hc]
      show CallbackBarrier.registerAll ((b.register cid cps).1) t = _
      rw [hreg]
      rw [registerAll_of_not_crossed t
        { b with toExecuteAfterBarrier :=
            b.toExecuteAfterBarrier ++ [(cid, cps)] } hc]
      simp

/-- C1: a barrier with registered continuations, incremented by a total of
`n ≥ 1` and then invoked exactly `n` times (any `k ≤ n` of them before
`wait()` and the remaining `n - k` after), raises nothing, crosses exactly
once, and the execution log is exactly the registration list: each
continuation ran exactly once. -/
theorem C1_barrier_crosses_once (cs : List (Nat × Bool)) (incs : List Int)
    (n k : Nat) (a : List Nat) (kw : List (String × Nat))
    (h1 : ∀ i ∈ incs, 1 ≤ i) (hsum : incs.sum = (n : Int))
    (hn : 1 ≤ n) (hk : k ≤ n) :
    ((CallbackBarrier.init : CallbackBarrier Nat Nat).registerAll cs).run
        (incs.map BarrierOp.increment ++
          (List.replicate k (BarrierOp.call a kw) ++
            (BarrierOp.wait :: List.replicate (n - k) (BarrierOp.call a kw)))) =
      .ok (⟨false, true, 0, [], []⟩, cs) := by
  rw [registerAll_of_not_crossed cs CallbackBarrier.init rfl]
  have hb0 : ({ (CallbackBarrier.init : CallbackBarrier Nat Nat) with
      toExecuteAfterBarrier :=
        (CallbackBarrier.init : CallbackBarrier Nat Nat).toExecuteAfterBarrier
          ++ cs } : CallbackBarrier Nat Nat) =
      ⟨false, false, 0, [], cs⟩ := by
    simp [CallbackBarrier.init]
  rw [hb0]
  rw [run_increments incs ⟨false, false, 0, [], cs⟩ _ h1 rfl rfl]
  have hstate : ({ (⟨false, false, 0, [], cs⟩ : CallbackBarrier Nat Nat) with
      callsPending :=
        (⟨false, false, 0, [], cs⟩ : CallbackBarrier Nat Nat).callsPending
          + incs.sum }) = (⟨false, false, (n : Int), [], cs⟩ :
        CallbackBarrier Nat Nat) := by
    simp [hsum]
  rw [hstate]
  rw [run_calls_editing a kw k ⟨false, false, (n : Int), [], cs⟩ _ rfl rfl]
  have hstate2 : ({ (⟨false, false, (n : Int), [], cs⟩ :
      CallbackBarrier Nat Nat) with
      callsPending :=
        (⟨false, false, (n : Int), [], cs⟩ :
          CallbackBarrier Nat Nat).callsPending - (k : Int) }) =
      (⟨false, false, ((n : Int) - (k : Int)), [], cs⟩ :
        CallbackBarrier Nat Nat) := rfl
  rw [hstate2]
  by_cases hkn : k = n
  · subst hkn
    have hz : ((k : Int) - (k : Int)) = 0 := by ring
    rw [hz, Nat.sub_self, List.replicate_zero]
    have hstep : (⟨false, false, (0 : Int), [], cs⟩ :
        CallbackBarrier Nat Nat).stepOp .wait =
        .ok (⟨false, true, 0, [], []⟩, cs) := by
      simp [CallbackBarrier.stepOp, CallbackBarrier.wait,
        CallbackBarrier.crossBarrier]
    simp only [CallbackBarrier.run, hstep]
    simp
  · have hlt : k < n := Nat.lt_of_le_of_ne hk hkn
    have hnneg : ¬(((n : Int) - (k : Int)) < 0) := by omega
    have hnz : ¬(((n : Int) - (k : Int)) = 0) := by omega
    have hstep : (⟨false, false, ((n : Int) - (k : Int)), [], cs⟩ :
        CallbackBarrier Nat Nat).stepOp .wait =
        .ok (⟨true, false, ((n : Int) - (k : Int)), [], cs⟩, []) := by
      simp [CallbackBarrier.stepOp, CallbackBarrier.wait, hnneg, hnz]
    rw [run_cons_of_step_nil_log hstep]
    obtain ⟨j, hj⟩ : ∃ j, n - k = j + 1 := ⟨n - k - 1, by omega⟩
    rw [hj]
    rw [run_calls_waiting a kw j ⟨true, false, ((n : Int) - (k : Int)), [], cs⟩
      rfl rfl (by show ((n : Int) - (k : Int)) = _; omega)]

/-- C1 witness: two continuations, one increment of 2, one call before
`wait()` and one after. -/
theorem C1_barrier_crosses_once_witness :
    ((CallbackBarrier.init : CallbackBarrier Nat Nat).registerAll
        [(0, false), (1, true)]).run
        (([2] : List Int).map BarrierOp.increment ++
          (List.replicate 1 (BarrierOp.call [] []) ++
            (BarrierOp.wait :: List.replicate (2 - 1) (BarrierOp.call [] [])))) =
      .ok (⟨false, true, 0, [], []⟩, [(0, false), (1, true)]) :=
  C1_barrier_crosses_once [(0, false), (1, true)] [2] 2 1 [] []
    (by decide) (by decide) (by decide) (by decide)

end Qmxgraph
